import Mathlib

/-!
Verification of the multi-client chat server of this repository.

The embedding follows `src/server.py` (class `ChatServer`). The registry
state is the `clients` dict (modelled as a list of handles in insertion
order, each handle standing for the socket registered under it), together
with the three counters. Socket operations are modelled as observable
events: a `send` or `close` on the socket registered under a handle, or on
the not-yet-registered socket of a connecting client. A send may raise in
Python; the embedding passes a failure oracle `fails` listing the handles
whose socket raises on `send`. An event records the attempt, made whether
or not the send then raises.
-/

namespace Chat

/-- Observable socket effect: a `send` or a `close` on the socket registered
under `target`, or (`sendConn`/`closeConn`) on the connecting socket of a
client that is not registered. -/
inductive Event
  | send (target : String) (message : String)
  | sendConn (message : String)
  | close (target : String)
  | closeConn
  deriving DecidableEq, Repr

/-- State of `ChatServer`: the `clients` dict (handles in insertion order),
`active_connections`, `connection_count` and `max_concurrent`. -/
structure ServerState where
  clients : List String
  active_connections : Int
  connection_count : Nat
  max_concurrent : Int
  deriving DecidableEq, Repr

/-- The state built by `ChatServer.__init__`. -/
def initialState : ServerState :=
  { clients := [], active_connections := 0, connection_count := 0, max_concurrent := 0 }

/-- Embedding of `ChatServer.add_client` (server.py lines 57-75): under the
lock, refuse a handle already present; otherwise insert it and bump the
counters, tracking the concurrent maximum. -/
def add_client (st : ServerState) (username : String) : ServerState × Bool :=
  if username ∈ st.clients then (st, false)
  else
    let active := st.active_connections + 1
    ({ clients := st.clients ++ [username],
       active_connections := active,
       connection_count := st.connection_count + 1,
       max_concurrent := if active > st.max_concurrent then active else st.max_concurrent },
     true)

/-- Embedding of `ChatServer.remove_client` with `notify=False`
(server.py lines 77-104): if present, close the socket, delete the entry and
decrement the active count; no notification send and no broadcast. -/
def remove_client_quiet (st : ServerState) (username : String) : ServerState × List Event :=
  if username ∈ st.clients then
    ({ st with clients := st.clients.erase username,
               active_connections := st.active_connections - 1 },
     [Event.close username])
  else (st, [])

/-- The cleanup loop at the end of `ChatServer.broadcast` (server.py lines
130-131): `remove_client(username, notify=False)` for each collected
disconnected handle, in order. -/
def removeAllQuiet : ServerState → List String → ServerState × List Event
  | st, [] => (st, [])
  | st, u :: rest =>
    let r := remove_client_quiet st u
    let rr := removeAllQuiet r.1 rest
    (rr.1, r.2 ++ rr.2)

/-- Embedding of `ChatServer.broadcast` (server.py lines 113-131): send the
message to every registered handle other than `sender`, collect the handles
whose send raised, then remove each of them with `notify=False`. -/
def broadcast (st : ServerState) (message : String) (sender : Option String)
    (fails : List String) : ServerState × List Event :=
  let recipients := st.clients.filter (fun u => decide (some u ≠ sender))
  let sends := recipients.map (fun u => Event.send u message)
  let disconnected := recipients.filter (fun u => decide (u ∈ fails))
  let r := removeAllQuiet st disconnected
  (r.1, sends ++ r.2)

/-- Embedding of `ChatServer.remove_client` (server.py lines 77-104): if the
handle is present, attempt the disconnect notice when `notify`, close the
socket, delete the entry, decrement the active count, and when `notify`
broadcast the "left the chat" notice excluding the removed handle. -/
def remove_client (st : ServerState) (username : String) (notify : Bool)
    (fails : List String) : ServerState × List Event :=
  if username ∈ st.clients then
    let st1 : ServerState :=
      { st with clients := st.clients.erase username,
                active_connections := st.active_connections - 1 }
    if notify then
      let b := broadcast st1 ("[SERVER] " ++ username ++ " left the chat") (some username) fails
      (b.1, Event.send username ("[SERVER] Connection closed") :: Event.close username :: b.2)
    else
      (st1, [Event.close username])
  else (st, [])

/-- A `self.clients[u].send(...)` guarded by a swallow-all `try`: the send is
attempted only when the lookup succeeds, and a raise is ignored. -/
def send_if_present (st : ServerState) (u : String) (message : String) : List Event :=
  if u ∈ st.clients then [Event.send u message] else []

/-- Embedding of `ChatServer.private_message` (server.py lines 133-165).
Target present: send it the private message; on a raise, fall to the error
path, which attempts a delivery-error reply to the sender; otherwise attempt
the confirmation to the sender (a `KeyError` on an absent sender, or a raise
of that send, also falls to the error path). Target absent: attempt the
"not online" error reply to the sender. The registry is never mutated. -/
def private_message (st : ServerState) (target_user : String) (message : String)
    (sender : String) (fails : List String) : ServerState × List Event :=
  if target_user ∈ st.clients then
    let pm := Event.send target_user ("[PRIVATE] " ++ sender ++ ": " ++ message)
    let errText := "[ERROR] Could not deliver message to " ++ target_user
    if target_user ∈ fails then
      (st, pm :: send_if_present st sender errText)
    else if sender ∈ st.clients then
      let conf := Event.send sender ("[SENT] Private message to " ++ target_user)
      if sender ∈ fails then (st, pm :: conf :: send_if_present st sender errText)
      else (st, [pm, conf])
    else (st, [pm])
  else
    (st, send_if_present st sender ("[ERROR] User '" ++ target_user ++ "' is not online"))

/-- Embedding of `ChatServer.get_online_users` (server.py lines 106-109). -/
def get_online_users (st : ServerState) : List String :=
  st.clients

/-- Whether the first list begins with the second, character by character. -/
def listStartsWith : List Char → List Char → Bool
  | _, [] => true
  | [], _ :: _ => false
  | c :: cs, p :: ps => c == p && listStartsWith cs ps

/-- Python's `s.startswith(pre)`. -/
def pyStartsWith (s pre : String) : Bool :=
  listStartsWith s.data pre.data

/-- Split a character list at its first space, when it has one. -/
def splitOnceSpace : List Char → Option (List Char × List Char)
  | [] => none
  | c :: rest =>
    if c = ' ' then some ([], rest)
    else
      match splitOnceSpace rest with
      | none => none
      | some (pre, post) => some (c :: pre, post)

/-- Python's `s.split(" ", 2)`: split at the first two occurrences of a
single space, the remainder left unsplit (empty components kept). -/
def pySplitSpace2 (s : String) : List String :=
  match splitOnceSpace s.data with
  | none => [s]
  | some (a, rest) =>
    match splitOnceSpace rest with
    | none => [String.mk a, String.mk rest]
    | some (b, rest2) => [String.mk a, String.mk b, String.mk rest2]

/-- The command summary sent at handshake and on `/help` (server.py lines
200-207 and 276-283, identical text). -/
def help_text : String :=
  "\n--- Available Commands ---\n/private <username> <message> - Send private message\n/users - List online users\n/help - Show this help\nType normally for group chat\n--------------------------\n"

/-- The `/users` reply (server.py line 271). -/
def users_reply (st : ServerState) : String :=
  "[SERVER] Online users (" ++ toString (get_online_users st).length ++ "): "
    ++ String.intercalate (", ") (get_online_users st)

/-- Embedding of `ChatServer.route_message` (server.py lines 254-290): a line
starting with `/private` is split with `split(" ", 2)` and handed to
`private_message` when it has at least three parts, else a usage error goes
to the sender; a line equal to `/users` or `/help` gets the corresponding
reply to the sender; anything else is broadcast with the sender's handle
prefixed, excluding the sender. -/
def route_message (st : ServerState) (username : String) (message : String)
    (fails : List String) : ServerState × List Event :=
  if pyStartsWith message ("/private") then
    let parts := pySplitSpace2 message
    if parts.length ≥ 3 then
      private_message st (parts.getD 1 "") (parts.getD 2 "") username fails
    else
      (st, send_if_present st username ("[ERROR] Usage: /private <username> <message>"))
  else if message = "/users" then
    (st, send_if_present st username (users_reply st))
  else if message = "/help" then
    (st, send_if_present st username help_text)
  else
    broadcast st (username ++ ": " ++ message) (some username) fails

/-- The whitespace characters Python's `str.strip()` removes (ASCII range). -/
def isPySpace (c : Char) : Bool :=
  c = ' ' || c = '\t' || c = '\n' || c = '\r' || c = '\x0b' || c = '\x0c'

/-- Python's `s.strip()`: drop leading and trailing whitespace. -/
def pyStrip (s : String) : String :=
  String.mk (((s.data.dropWhile isPySpace).reverse.dropWhile isPySpace).reverse)

/-- Outcome of the handshake phase of `handle_client`. -/
inductive HandshakeOutcome
  | emptyHandle
  | duplicate
  | registered
  deriving DecidableEq, Repr

/-- Embedding of the handshake phase of `ChatServer.handle_client`
(server.py lines 177-208), together with the `finally` teardown (lines
243-252) on the paths that end the connection there. The received bytes are
stripped. An empty handle raises, is logged, and — `username` being falsy in
the `finally` block — the connecting socket is closed with nothing sent to
it and no registry access. A duplicate handle gets the "already taken" error
on the connecting socket, which is closed; but the `return` at line 190
leaves `username` bound to the duplicate name, so the `finally` block then
runs `remove_client(username, notify=True)` against the ORIGINAL holder's
registration: its socket is sent the disconnect notice and closed, its entry
deleted, the active count decremented, and the "left" notice broadcast (in
the source that broadcast self-deadlocks on the non-reentrant lock, see the
lock-trace theorems; the registry mutation and the writes to the original
holder precede the hang, and the embedding is the lock-erased flow).
A fresh handle is registered, sent the welcome, the join notice is broadcast
excluding it, and it is sent the command summary (its read loop and eventual
teardown are not part of the handshake). -/
def handle_handshake (st : ServerState) (raw : String) (fails : List String) :
    ServerState × List Event × HandshakeOutcome :=
  let username := pyStrip raw
  if username = "" then
    (st, [Event.closeConn], HandshakeOutcome.emptyHandle)
  else
    let a := add_client st username
    if a.2 then
      let b := broadcast a.1 ("[SERVER] " ++ username ++ " joined the chat") (some username) fails
      (b.1,
       Event.send username ("[SERVER] Welcome " ++ username ++ "! You are connected.")
         :: b.2 ++ [Event.send username help_text],
       HandshakeOutcome.registered)
    else
      let r := remove_client st username true fails
      (r.1,
       Event.sendConn ("[ERROR] Username already taken. Please try another.")
         :: Event.closeConn :: r.2,
       HandshakeOutcome.duplicate)

/-- One registry operation of a history: a registration or a removal (with
its notify flag and the send-failure oracle in effect during it). -/
inductive RegOp
  | add (u : String)
  | remove (u : String) (notify : Bool) (fails : List String)

/-- Apply one registry operation to the state. -/
def applyOp (st : ServerState) : RegOp → ServerState
  | RegOp.add u => (add_client st u).1
  | RegOp.remove u notify fails => (remove_client st u notify fails).1

/-- Run a history of registry operations from the freshly initialised
server. -/
def runOps (ops : List RegOp) : ServerState :=
  ops.foldl applyOp initialState

/-- The registry invariant of the spec: the active-connections counter
equals the number of registered handles, and no handle appears twice. -/
def RegistryInv (st : ServerState) : Prop :=
  st.active_connections = st.clients.length ∧ st.clients.Nodup

/-- A two-client registry state, as after registering "A" then "B". -/
def stAB : ServerState :=
  { clients := ["A", "B"], active_connections := 2, connection_count := 2, max_concurrent := 2 }

theorem remove_client_quiet_inv {st : ServerState} (u : String) (h : RegistryInv st) :
    RegistryInv (remove_client_quiet st u).1 := by
  unfold RegistryInv remove_client_quiet at *
  by_cases hm : u ∈ st.clients
  · simp only [hm, if_pos]
    refine ⟨?_, h.2.erase u⟩
    have hlen : (st.clients.erase u).length = st.clients.length - 1 :=
      List.length_erase_of_mem hm
    have hpos : 0 < st.clients.length := List.length_pos.mpr (List.ne_nil_of_mem hm)
    simp only [hlen, h.1]
    omega
  · simpa [hm] using h

theorem remove_client_quiet_nodup {st : ServerState} (u : String) (h : st.clients.Nodup) :
    (remove_client_quiet st u).1.clients.Nodup := by
  unfold remove_client_quiet
  by_cases hm : u ∈ st.clients <;> simp [hm, h, h.erase u]

theorem remove_client_quiet_sublist (st : ServerState) (u : String) :
    (remove_client_quiet st u).1.clients.Sublist st.clients := by
  unfold remove_client_quiet
  by_cases hm : u ∈ st.clients <;> simp [hm]
  exact List.erase_sublist u st.clients

theorem remove_client_quiet_self_not_mem {st : ServerState} (u : String)
    (h : st.clients.Nodup) : u ∉ (remove_client_quiet st u).1.clients := by
  unfold remove_client_quiet
  by_cases hm : u ∈ st.clients <;> simp [hm]
  exact h.not_mem_erase

theorem removeAllQuiet_inv (l : List String) {st : ServerState} (h : RegistryInv st) :
    RegistryInv (removeAllQuiet st l).1 := by
  induction l generalizing st with
  | nil => simpa [removeAllQuiet] using h
  | cons u rest ih => exact ih (remove_client_quiet_inv u h)

theorem removeAllQuiet_sublist (l : List String) (st : ServerState) :
    (removeAllQuiet st l).1.clients.Sublist st.clients := by
  induction l generalizing st with
  | nil => simp [removeAllQuiet]
  | cons u rest ih => exact (ih _).trans (remove_client_quiet_sublist st u)

theorem removeAllQuiet_not_mem (l : List String) (st : ServerState) (u : String)
    (h : u ∉ st.clients) : u ∉ (removeAllQuiet st l).1.clients :=
  fun hc => h ((removeAllQuiet_sublist l st).subset hc)

theorem removeAllQuiet_nodup (l : List String) {st : ServerState} (h : st.clients.Nodup) :
    (removeAllQuiet st l).1.clients.Nodup := by
  induction l generalizing st with
  | nil => simpa [removeAllQuiet] using h
  | cons u rest ih => exact ih (remove_client_quiet_nodup u h)

theorem removeAllQuiet_removes (l : List String) {st : ServerState}
    (hstnd : st.clients.Nodup) : ∀ u ∈ l, u ∉ (removeAllQuiet st l).1.clients := by
  induction l generalizing st with
  | nil => simp
  | cons v rest ih =>
    intro u hu
    rcases List.mem_cons.mp hu with rfl | hu
    · exact removeAllQuiet_not_mem rest _ u (remove_client_quiet_self_not_mem u hstnd)
    · exact ih (remove_client_quiet_nodup v hstnd) u hu

theorem removeAllQuiet_events_close (l : List String) (st : ServerState) :
    ∀ e ∈ (removeAllQuiet st l).2, ∃ u, e = Event.close u := by
  induction l generalizing st with
  | nil => simp [removeAllQuiet]
  | cons u rest ih =>
    intro e he
    simp only [removeAllQuiet, List.mem_append] at he
    rcases he with he | he
    · unfold remove_client_quiet at he
      by_cases hm : u ∈ st.clients <;> simp [hm] at he
      exact ⟨u, he⟩
    · exact ih _ e he

theorem removeAllQuiet_events_eq (l : List String) {st : ServerState}
    (hmem : ∀ u ∈ l, u ∈ st.clients) (hnd : l.Nodup) (hstnd : st.clients.Nodup) :
    (removeAllQuiet st l).2 = l.map Event.close := by
  induction l generalizing st with
  | nil => simp [removeAllQuiet]
  | cons u rest ih =>
    have hu : u ∈ st.clients := hmem u (List.mem_cons_self u rest)
    have hq : remove_client_quiet st u =
        ({ st with clients := st.clients.erase u,
                   active_connections := st.active_connections - 1 },
         [Event.close u]) := by
      simp [remove_client_quiet, hu]
    simp only [removeAllQuiet, hq, List.map_cons]
    have hrest : (removeAllQuiet
        ({ st with clients := st.clients.erase u,
                   active_connections := st.active_connections - 1 } : ServerState)
        rest).2 = rest.map Event.close := by
      apply ih
      · intro v hv
        have hvst : v ∈ st.clients := hmem v (List.mem_cons_of_mem u hv)
        have hvu : v ≠ u := by
          rintro rfl
          exact (List.nodup_cons.mp hnd).1 hv
        exact (List.mem_erase_of_ne hvu).mpr hvst
      · exact (List.nodup_cons.mp hnd).2
      · exact hstnd.erase u
    simp [hrest]

theorem add_client_inv {st : ServerState} (u : String) (h : RegistryInv st) :
    RegistryInv (add_client st u).1 := by
  unfold RegistryInv add_client at *
  by_cases hm : u ∈ st.clients
  · simpa [hm] using h
  · simp only [hm, if_neg, not_false_iff]
    refine ⟨?_, ?_⟩
    · simp only [List.length_append, List.length_cons, List.length_nil, h.1]
      push_cast
      omega
    · simp only [List.nodup_append, List.nodup_cons, List.not_mem_nil, not_false_iff,
        List.nodup_nil, and_true, true_and]
      exact ⟨h.2, by simpa [List.disjoint_singleton] using hm⟩

theorem broadcast_inv {st : ServerState} (message : String) (sender : Option String)
    (fails : List String) (h : RegistryInv st) :
    RegistryInv (broadcast st message sender fails).1 := by
  unfold broadcast
  exact removeAllQuiet_inv _ h

theorem broadcast_sublist (st : ServerState) (message : String) (sender : Option String)
    (fails : List String) :
    (broadcast st message sender fails).1.clients.Sublist st.clients := by
  unfold broadcast
  exact removeAllQuiet_sublist _ st

theorem remove_client_inv {st : ServerState} (u : String) (notify : Bool)
    (fails : List String) (h : RegistryInv st) :
    RegistryInv (remove_client st u notify fails).1 := by
  unfold remove_client
  by_cases hm : u ∈ st.clients
  · have h1 : RegistryInv
        ({ st with clients := st.clients.erase u,
                   active_connections := st.active_connections - 1 } : ServerState) := by
      refine ⟨?_, h.2.erase u⟩
      have hlen : (st.clients.erase u).length = st.clients.length - 1 :=
        List.length_erase_of_mem hm
      have hpos : 0 < st.clients.length := List.length_pos.mpr (List.ne_nil_of_mem hm)
      simp only [hlen, h.1]
      omega
    cases notify with
    | true => simpa [hm] using broadcast_inv _ _ _ h1
    | false => simpa [hm] using h1
  · simpa [hm] using h

/-- C1: every history of register (`add_client`) and removal
(`remove_client`) operations from the freshly initialised server leaves the
active-connections counter equal to the number of handles in the clients
map, with no handle present twice. -/
theorem runOps_registry_invariant (ops : List RegOp) : RegistryInv (runOps ops) := by
  have hgen : ∀ (l : List RegOp) (st : ServerState), RegistryInv st →
      RegistryInv (l.foldl applyOp st) := by
    intro l
    induction l with
    | nil => intro st h; simpa using h
    | cons op rest ih =>
      intro st h
      simp only [List.foldl_cons]
      apply ih
      cases op with
      | add u => exact add_client_inv u h
      | remove u notify fails => exact remove_client_inv u notify fails h
  exact hgen ops initialState (by constructor <;> simp [initialState])

/-- C4: registering a handle already present fails and leaves the whole
state (clients map and all three counters) exactly as it was. -/
theorem add_client_duplicate (st : ServerState) (u : String) (h : u ∈ st.clients) :
    add_client st u = (st, false) := by
  simp [add_client, h]

theorem add_client_duplicate_witness :
    "A" ∈ stAB.clients ∧ add_client stAB "A" = (stAB, false) :=
  ⟨by decide, add_client_duplicate stAB "A" (by decide)⟩

/-- C5: a private message whose target is not registered, from a registered
sender, produces exactly one write, the "not online" error to the sender,
and no state change. -/
theorem private_message_target_absent (st : ServerState) (target message sender : String)
    (fails : List String) (ht : target ∉ st.clients) (hs : sender ∈ st.clients) :
    private_message st target message sender fails =
      (st, [Event.send sender ("[ERROR] User '" ++ target ++ "' is not online")]) := by
  simp [private_message, ht, send_if_present, hs]

theorem private_message_target_absent_witness :
    "ghost" ∉ stAB.clients ∧ "A" ∈ stAB.clients ∧
    private_message stAB "ghost" "hi" "A" [] =
      (stAB, [Event.send "A" ("[ERROR] User 'ghost' is not online")]) :=
  ⟨by decide, by decide, private_message_target_absent stAB "ghost" "hi" "A" [] (by decide) (by decide)⟩

theorem remove_client_absent {st : ServerState} {u : String} (h : u ∉ st.clients)
    (notify : Bool) (fails : List String) : remove_client st u notify fails = (st, []) := by
  unfold remove_client
  simp [h]

/-- C6: removal is idempotent: a second `remove_client` of the same handle,
right after a first one (with any notify flags and failure oracles), returns
the state unchanged and performs no socket operation at all, in particular
no duplicate "left" broadcast. -/
theorem remove_client_idempotent (st : ServerState) (u : String) (n n' : Bool)
    (f f' : List String) (h : st.clients.Nodup) :
    remove_client (remove_client st u n f).1 u n' f' = ((remove_client st u n f).1, []) := by
  have habs : u ∉ (remove_client st u n f).1.clients := by
    unfold remove_client
    by_cases hm : u ∈ st.clients
    · cases n with
      | true =>
        simp only [hm, if_pos, if_true]
        intro hc
        exact h.not_mem_erase ((broadcast_sublist _ _ _ _).subset hc)
      | false => simpa [hm] using h.not_mem_erase
    · simp [hm]
  exact remove_client_absent habs n' f'

theorem remove_client_idempotent_witness :
    stAB.clients.Nodup ∧
    remove_client (remove_client stAB "A" true []).1 "A" true [] =
      ((remove_client stAB "A" true []).1, []) :=
  ⟨by decide, remove_client_idempotent stAB "A" true true [] [] (by decide)⟩

/-- C3: a broadcast excluding a sender never writes anything to the sender's
connection, and attempts the message on the connection of every other
handle registered when the broadcast iterates the map. -/
theorem broadcast_excludes_sender (st : ServerState) (message s : String)
    (fails : List String) :
    (∀ m, Event.send s m ∉ (broadcast st message (some s) fails).2) ∧
    (∀ u ∈ st.clients, u ≠ s →
      Event.send u message ∈ (broadcast st message (some s) fails).2) := by
  constructor
  · intro m hc
    simp only [broadcast, List.mem_append] at hc
    rcases hc with hc | hc
    · simp only [List.mem_map] at hc
      obtain ⟨u, hu, he⟩ := hc
      have hus : u = s := by
        injection he with h1 h2
      subst hus
      have := (List.mem_filter.mp hu).2
      simp at this
    · obtain ⟨v, hv⟩ := removeAllQuiet_events_close _ _ _ hc
      simp at hv
  · intro u hu hne
    simp only [broadcast, List.mem_append]
    left
    simp only [List.mem_map]
    exact ⟨u, List.mem_filter.mpr ⟨hu, by simp [hne]⟩, rfl⟩

theorem broadcast_excludes_sender_witness :
    "B" ∈ stAB.clients ∧ "B" ≠ "A" ∧
    Event.send "B" "hi" ∈ (broadcast stAB "hi" (some "A") []).2 ∧
    Event.send "A" "hi" ∉ (broadcast stAB "hi" (some "A") []).2 :=
  ⟨by decide, by decide,
   (broadcast_excludes_sender stAB "hi" "A" []).2 "B" (by decide) (by decide),
   (broadcast_excludes_sender stAB "hi" "A" []).1 "hi"⟩

/-- The lock-erased data flow of a broadcast with failing recipients, i.e.
the cleanup the code's text (and the spec) intend: the fan-out first
attempts the message on every recipient in registry order, then the only
further socket operations are the closes of the recipients whose write
failed — no error report to anyone and no "left" notice — and every failed
recipient is out of the map in the returned state. The source never reaches
this point: its cleanup re-acquires the held non-reentrant lock (see the
lock-trace theorems below). -/
theorem broadcast_failed_recipient_cleanup (st : ServerState) (message s : String)
    (fails : List String) (h : st.clients.Nodup) :
    (broadcast st message (some s) fails).2 =
      ((st.clients.filter (fun u => decide (some u ≠ some s))).map
          (fun u => Event.send u message))
        ++ (((st.clients.filter (fun u => decide (some u ≠ some s))).filter
              (fun u => decide (u ∈ fails))).map Event.close)
    ∧ ∀ u ∈ st.clients, u ≠ s → u ∈ fails →
        u ∉ (broadcast st message (some s) fails).1.clients := by
  constructor
  · simp only [broadcast]
    congr 1
    apply removeAllQuiet_events_eq
    · intro v hv
      exact (List.mem_filter.mp (List.mem_filter.mp hv).1).1
    · exact (h.filter _).filter _
    · exact h
  · intro u hu hne hf
    simp only [broadcast]
    apply removeAllQuiet_removes _ h
    refine List.mem_filter.mpr ⟨List.mem_filter.mpr ⟨hu, by simp [hne]⟩, by simp [hf]⟩

theorem broadcast_failed_recipient_cleanup_witness :
    stAB.clients.Nodup ∧
    (broadcast stAB "hi" (some "A") ["B"]).2 = [Event.send "B" "hi", Event.close "B"] ∧
    "B" ∉ (broadcast stAB "hi" (some "A") ["B"]).1.clients := by
  have h := broadcast_failed_recipient_cleanup stAB "hi" "A" ["B"] (by decide)
  refine ⟨by decide, ?_, h.2 "B" (by decide) (by decide) (by decide)⟩
  rw [h.1]
  decide

/-- C2 counterexample: the line "/private" does not begin with "/private "
(trailing space), so by the claim it would be delivered as a group message
to the other registered session; the code instead dispatches every line
beginning with the bare "/private" to the private-command branch and replies
a usage error to the sender alone. -/
theorem route_message_private_prefix_cex :
    pyStartsWith "/private" "/private " = false ∧
    route_message stAB "A" "/private" [] =
      (stAB, [Event.send "A" ("[ERROR] Usage: /private <username> <message>")]) ∧
    Event.send "B" ("A: /private") ∉ (route_message stAB "A" "/private" []).2 := by
  decide

/-- C2 (amended): for a registered sender and a non-empty line, the lines
beginning with "/private" (no trailing space required) are the private
command: split into at most three tokens, with a usage error sent to the
sender alone when fewer than two arguments follow; a line equal to "/users"
gets the handle-list reply to the sender; "/help" the command summary;
every other line is broadcast to the other registered sessions with the
sender's handle prefixed. -/
theorem route_message_dispatch (st : ServerState) (u message : String)
    (fails : List String) (hu : u ∈ st.clients) (hne : message ≠ "") :
    (pyStartsWith message ("/private") = true →
      (3 ≤ (pySplitSpace2 message).length ∧
        route_message st u message fails =
          private_message st ((pySplitSpace2 message).getD 1 "")
            ((pySplitSpace2 message).getD 2 "") u fails)
      ∨ ((pySplitSpace2 message).length < 3 ∧
        route_message st u message fails =
          (st, [Event.send u ("[ERROR] Usage: /private <username> <message>")])))
    ∧ (pyStartsWith message ("/private") = false → message = "/users" →
        route_message st u message fails = (st, [Event.send u (users_reply st)]))
    ∧ (pyStartsWith message ("/private") = false → message = "/help" →
        route_message st u message fails = (st, [Event.send u help_text]))
    ∧ (pyStartsWith message ("/private") = false → message ≠ "/users" → message ≠ "/help" →
        route_message st u message fails =
          broadcast st (u ++ ": " ++ message) (some u) fails) := by
  refine ⟨?_, ?_, ?_, ?_⟩
  · intro hp
    by_cases hlen : 3 ≤ (pySplitSpace2 message).length
    · exact Or.inl ⟨hlen, by simp [route_message, hp, hlen]⟩
    · refine Or.inr ⟨by omega, ?_⟩
      simp [route_message, hp, hlen, send_if_present, hu]
  · intro hp hm
    subst hm
    simp [route_message, hp, send_if_present, hu]
  · intro hp hm
    subst hm
    simp [route_message, hp, send_if_present, hu]
  · intro hp hm1 hm2
    simp [route_message, hp, hm1, hm2]

theorem route_message_dispatch_witness :
    "A" ∈ stAB.clients ∧ "/users" ≠ "" ∧
    route_message stAB "A" "/users" [] = (stAB, [Event.send "A" (users_reply stAB)]) :=
  ⟨by decide, by decide,
   (route_message_dispatch stAB "A" "/users" [] (by decide) (by decide)).2.1 (by decide) rfl⟩

/-- C8: the code contradicts the claim on the duplicate path. With A and B
registered and a new connection offering the duplicate handle "A" (sent as
" A "): the offender is sent the "already taken" error and closed, but the
`finally` teardown then mutates the registry — the ORIGINAL holder A is
written the disconnect notice, its socket closed, its entry deleted and the
active count decremented (in the source, the subsequent "left" broadcast
then self-deadlocks on the held non-reentrant lock; the mutation and the
writes to A precede the hang, so each conjunct here is behaviour the source
exhibits). For an empty candidate handle the connection is closed with no
report at all and the registry untouched, against the claim's "the error is
reported to the offending client". -/
theorem handshake_duplicate_mutates_registry :
    (handle_handshake stAB " A " []).2.2 = HandshakeOutcome.duplicate ∧
    (handle_handshake stAB " A " []).1 =
      { clients := ["B"], active_connections := 1, connection_count := 2,
        max_concurrent := 2 } ∧
    Event.send "A" ("[SERVER] Connection closed") ∈ (handle_handshake stAB " A " []).2.1 ∧
    Event.close "A" ∈ (handle_handshake stAB " A " []).2.1 ∧
    handle_handshake stAB "" [] = (stAB, [Event.closeConn], HandshakeOutcome.emptyHandle) := by
  decide

/-- Lock and network operations of `ChatServer.broadcast` in program order:
the entry of its `with self.clients_lock` block, each `client_socket.send`
to a recipient (all inside that block), each nested lock acquisition made by
`remove_client(username, notify=False)` for a failed recipient
(`remove_client` opens its own `with self.clients_lock` on the same
non-reentrant lock), and the exit of the block. -/
inductive LockEvent
  | acquire
  | release
  | netSend (target : String) (message : String)
  deriving DecidableEq, Repr

/-- The lock/network trace of `ChatServer.broadcast` (server.py lines
113-131). -/
def broadcast_lock_trace (st : ServerState) (message : String) (sender : Option String)
    (fails : List String) : List LockEvent :=
  let recipients := st.clients.filter (fun u => decide (some u ≠ sender))
  let sends := recipients.map (fun u => LockEvent.netSend u message)
  let disconnected := recipients.filter (fun u => decide (u ∈ fails))
  let cleanup := disconnected.map (fun _ => LockEvent.acquire)
  LockEvent.acquire :: (sends ++ cleanup ++ [LockEvent.release])

/-- Whether some network send of the trace happens at positive lock depth. -/
def sendWhileHeld : List LockEvent → Nat → Bool
  | [], _ => false
  | LockEvent.acquire :: rest, d => sendWhileHeld rest (d + 1)
  | LockEvent.release :: rest, d => sendWhileHeld rest (d - 1)
  | LockEvent.netSend _ _ :: rest, d => decide (0 < d) || sendWhileHeld rest d

/-- Whether the trace acquires the lock while it is already held (with a
non-reentrant lock, a self-deadlock). -/
def acquireWhileHeld : List LockEvent → Nat → Bool
  | [], _ => false
  | LockEvent.acquire :: rest, d => decide (0 < d) || acquireWhileHeld rest (d + 1)
  | LockEvent.release :: rest, d => acquireWhileHeld rest (d - 1)
  | LockEvent.netSend _ _ :: rest, d => acquireWhileHeld rest d

/-- C9: contrary to the claim, `broadcast` performs its recipient writes
while holding `clients_lock`: with registry handles A and B and sender A the
trace is acquire, send to B, release, a network write at positive lock
depth; and when a recipient's write fails, the nested `remove_client`
acquires the already-held non-reentrant lock. -/
theorem broadcast_send_while_lock_held :
    broadcast_lock_trace stAB "hi" (some "A") [] =
      [LockEvent.acquire, LockEvent.netSend "B" "hi", LockEvent.release] ∧
    sendWhileHeld (broadcast_lock_trace stAB "hi" (some "A") []) 0 = true ∧
    acquireWhileHeld (broadcast_lock_trace stAB "hi" (some "A") ["B"]) 0 = true := by
  decide

/-- C7: the code contradicts the claim at the failing input (handles A and B
registered, broadcast from A, the write to B failing). The first two
conjuncts are the lock-erased data flow of those lines — the cleanup the
claim and the spec intend: the fan-out send, then only the silent close of
B, with B gone from the returned registry, no report and no left notice.
The third conjunct is what the source actually does there: its cleanup's
`remove_client("B", notify=False)` acquires `clients_lock` while `broadcast`
still holds it, and the non-reentrant lock never admits the nested acquire,
so the removal the claim promises never completes and the broadcast never
returns. -/
theorem broadcast_cleanup_deadlock_at_failed_write :
    (broadcast stAB "msg" (some "A") ["B"]).2 = [Event.send "B" "msg", Event.close "B"] ∧
    "B" ∉ (broadcast stAB "msg" (some "A") ["B"]).1.clients ∧
    acquireWhileHeld (broadcast_lock_trace stAB "msg" (some "A") ["B"]) 0 = true := by
  decide

/-- UTF-8 bytes of the fixed 16-byte key "this_is_16_bytes" of
`chat_project/encrypt.py`. -/
def KEY : List Nat :=
  [116, 104, 105, 115, 95, 105, 115, 95, 49, 54, 95, 98, 121, 116, 101, 115]

/-- An AEAD primitive in the shape pycryptodome's AES-EAX cipher exposes:
`encrypt_and_digest key nonce plaintext = (ciphertext, tag)` and
`decrypt_and_verify key nonce ciphertext tag`, with the library's contract
as fields: the default tag is 16 bytes (the AES block size), and
decrypt-and-verify recovers the plaintext of encrypt-and-digest under the
same key and nonce. The AES-EAX computation itself stays abstract; the
embedding uses only this contract. Messages and keys are byte lists (a
string stands for its UTF-8 byte sequence). -/
structure AEADCipher where
  encrypt_and_digest : List Nat → List Nat → List Nat → List Nat × List Nat
  decrypt_and_verify : List Nat → List Nat → List Nat → List Nat → Option (List Nat)
  tag_length : ∀ key nonce pt, (encrypt_and_digest key nonce pt).2.length = 16
  decrypt_encrypt : ∀ key nonce pt,
    decrypt_and_verify key nonce (encrypt_and_digest key nonce pt).1
      (encrypt_and_digest key nonce pt).2 = some pt

/-- Embedding of `encrypt_message` (encrypt.py lines 6-11): encrypt the
message bytes under KEY with the nonce the cipher drew; the output is
nonce, then tag, then ciphertext. -/
def encrypt_message (C : AEADCipher) (nonce : List Nat) (message : List Nat) : List Nat :=
  nonce ++ (C.encrypt_and_digest KEY nonce message).2
    ++ (C.encrypt_and_digest KEY nonce message).1

/-- Embedding of `decrypt_message` (encrypt.py lines 14-22): split the input
at byte offsets 16 and 32 into nonce, tag and ciphertext, and
decrypt-and-verify under KEY. -/
def decrypt_message (C : AEADCipher) (data : List Nat) : Option (List Nat) :=
  C.decrypt_and_verify KEY (data.take 16) (data.drop 32) ((data.drop 16).take 16)

/-- C10: for every message and every 16-byte nonce the cipher may draw,
decrypting an encryption returns the message: the key is the fixed 16-byte
key, the nonce occupies bytes 0-15 of the wire format, the tag bytes 16-31,
the ciphertext the rest, and decrypt_message splits exactly there. -/
theorem decrypt_message_encrypt_message (C : AEADCipher) (nonce message : List Nat)
    (h : nonce.length = 16) :
    decrypt_message C (encrypt_message C nonce message) = some message ∧
    KEY.length = 16 := by
  constructor
  · unfold decrypt_message encrypt_message
    have htag : (C.encrypt_and_digest KEY nonce message).2.length = 16 :=
      C.tag_length KEY nonce message
    rw [List.append_assoc]
    rw [List.take_left' h, List.drop_left' h]
    rw [List.take_left' htag]
    have hdrop : (nonce ++ ((C.encrypt_and_digest KEY nonce message).2
        ++ (C.encrypt_and_digest KEY nonce message).1)).drop 32
        = (C.encrypt_and_digest KEY nonce message).1 := by
      have h32 : (32 : Nat) = 16 + 16 := by norm_num
      rw [h32, ← List.drop_drop, List.drop_left' h, List.drop_left' htag]
    rw [hdrop]
    exact C.decrypt_encrypt KEY nonce message
  · decide

/-- A concrete instance of the AEAD contract, to witness the round-trip
theorem: ciphertext equals plaintext and the tag is a fixed 16-byte block. -/
def constCipher : AEADCipher where
  encrypt_and_digest := fun _ _ pt => (pt, List.replicate 16 0)
  decrypt_and_verify := fun _ _ ct tag => if tag = List.replicate 16 0 then some ct else none
  tag_length := fun _ _ _ => by simp
  decrypt_encrypt := fun _ _ _ => by simp

theorem decrypt_message_encrypt_message_witness :
    (List.replicate 16 0 : List Nat).length = 16 ∧
    decrypt_message constCipher
      (encrypt_message constCipher (List.replicate 16 0) [104, 105]) = some [104, 105] :=
  ⟨by decide,
   (decrypt_message_encrypt_message constCipher (List.replicate 16 0) [104, 105]
      (by decide)).1⟩

end Chat
